import Mathlib

/-!
Verification of the customer-support chat core: the keyword-based product
matching subsystem (`src/lib/utils.ts`), the TTL context cache and the
conversation-memory formatter (`src/lib/getChatMemory.ts`).

Strings are modelled as `List Char` (JavaScript strings are sequences of
code units; all inputs of interest are ASCII).  The JS regular expressions
used by the source are small and fixed, so each one is embedded as an
explicit scanning function; the `\s` and `\w` character classes are
modelled over their ASCII range, which covers every literal appearing in
the source.
-/

namespace Gurtoy

/-- Convert a Lean string literal to the `List Char` representation. -/
def str (s : String) : List Char := s.data

/-- ASCII whitespace, the relevant range of the JS `\s` class. -/
def isWs (c : Char) : Bool :=
  c == ' ' || c == '\t' || c == '\n' || c == '\r' || c == '\x0b' || c == '\x0c'

/-- The JS `\w` class: `[A-Za-z0-9_]`. -/
def isWordChar (c : Char) : Bool :=
  c.isAlpha || c.isDigit || c == '_'

/-- Lowercasing, as JS `toLowerCase` acts on ASCII text. -/
def lowerStr (l : List Char) : List Char := l.map Char.toLower

/-- `beginsWith p l` is true when `p` is an initial segment of `l`. -/
def beginsWith : List Char → List Char → Bool
  | [], _ => true
  | _ :: _, [] => false
  | p :: ps, c :: cs => p == c && beginsWith ps cs

/-- Case-insensitive `beginsWith` for a lowercase pattern. -/
def beginsWithCI (p l : List Char) : Bool := beginsWith p (lowerStr l)

/-- Substring containment, the JS `String.prototype.includes`. -/
def containsSeq (pat : List Char) : List Char → Bool
  | [] => beginsWith pat []
  | c :: cs => beginsWith pat (c :: cs) || containsSeq pat cs

/-- Case-insensitive substring containment for a lowercase pattern
(a JS `new RegExp(pattern, 'i').test(query)` on a literal alternative). -/
def containsCI (pat l : List Char) : Bool := containsSeq pat (lowerStr l)

/-- JS `String.prototype.trim`. -/
def trimmed (l : List Char) : List Char :=
  ((l.dropWhile isWs).reverse.dropWhile isWs).reverse

/-- Accumulator-based splitting on a separator character. -/
def splitOnCharAux (sep : Char) (acc : List Char) : List Char → List (List Char)
  | [] => [acc.reverse]
  | c :: cs =>
    if c == sep then acc.reverse :: splitOnCharAux sep [] cs
    else splitOnCharAux sep (c :: acc) cs

/-- JS `String.prototype.split(sep)` for a one-character separator:
empty fields at the boundaries are kept (`"".split` gives `[""]`). -/
def splitOnChar (sep : Char) (l : List Char) : List (List Char) :=
  splitOnCharAux sep [] l

/-- State machine behind `splitWsJS`: `acc` is the token being read,
`inSep` records that the previous character belonged to a whitespace run. -/
def splitWsAux (acc : List Char) (inSep : Bool) : List Char → List (List Char)
  | [] => [acc.reverse]
  | c :: cs =>
    if isWs c then
      if inSep then splitWsAux acc true cs
      else acc.reverse :: splitWsAux [] true cs
    else splitWsAux (c :: acc) false cs

/-- JS `String.prototype.split(/\s+/)`: maximal whitespace runs separate
the fields, and a leading or trailing run contributes an empty field,
exactly as in JS (`" a ".split(/\s+/) = ["", "a", ""]`). -/
def splitWsJS (l : List Char) : List (List Char) :=
  splitWsAux [] false l

/-- The JS global replacement of the literal pattern `"gurtoy-"` with the
empty string: delete every (leftmost-first, non-overlapping) occurrence. -/
def removeGurtoy : List Char → List Char
  | 'g' :: 'u' :: 'r' :: 't' :: 'o' :: 'y' :: '-' :: rest => removeGurtoy rest
  | c :: cs => c :: removeGurtoy cs
  | [] => []

/-- The JS global replacement of hyphens with spaces. -/
def hyphensToSpaces (l : List Char) : List Char :=
  l.map (fun c => if c == '-' then ' ' else c)

/-- Numeric value of a digit run, the effect of JS `parseInt` on the
string captured by `(\d+)`. -/
def natOfDigits (l : List Char) : Nat :=
  l.foldl (fun n c => 10 * n + (c.toNat - '0'.toNat)) 0

/-! ## Product matching (`src/lib/utils.ts`) -/

/-- The `ProductMatch` interface of `utils.ts`. -/
structure ProductMatch where
  url : List Char
  slug : List Char
  name : List Char
  score : Nat
  keywords : List (List Char)
deriving DecidableEq, Repr

/-- `INDEX_CACHE_TTL = 10 * 60 * 1000` (10 minutes). -/
def INDEX_CACHE_TTL : Nat := 10 * 60 * 1000

/-- The module-level mutable state of `utils.ts`:
`productIndex` and `indexLastUpdated`. -/
structure IndexState where
  productIndex : Option (List ProductMatch)
  indexLastUpdated : Nat
deriving DecidableEq, Repr

/-- The canonical catalog URL required of an indexed line. -/
def catalogUrlStart : List Char := str "https://thegurtoys.com/products/"

/-- `const categories = [...]` inside `extractKeywords`. -/
def categories : List (List Char) :=
  [str "car", str "bike", str "doll", str "toy", str "kids", str "baby",
   str "ride", str "push", str "scooter", str "stroller"]

/-- `const attributes = [...]` inside `extractKeywords`. -/
def attributes : List (List Char) :=
  [str "rechargeable", str "battery", str "electric", str "educational",
   str "musical", str "interactive"]

/-- `const ageGroups = [...]` inside `extractKeywords`. -/
def ageGroups : List (List Char) :=
  [str "baby", str "toddler", str "kids", str "child", str "infant"]

/-- `const colors = [...]` inside `extractKeywords`. -/
def colors : List (List Char) :=
  [str "pink", str "blue", str "red", str "green", str "yellow",
   str "white", str "black", str "navy"]

/-- `const allKeywords = [...categories, ...attributes, ...ageGroups, ...colors]`. -/
def allKeywords : List (List Char) :=
  categories ++ attributes ++ ageGroups ++ colors

/-- `extractKeywords(name)`: split the lowercased name on whitespace and
keep the words of length `> 2` that are in the vocabulary, or every word
of length `> 2` when the name has at most five words. -/
def extractKeywords (name : List Char) : List (List Char) :=
  (splitWsJS (lowerStr name)).filter (fun word =>
    2 < word.length && (decide (word ∈ allKeywords) ||
      decide ((splitWsJS (lowerStr name)).length ≤ 5)))

/-- `buildProductIndex(productData)`: split the catalog text into lines,
drop blank lines, and build one entry per line carrying the canonical URL. -/
def buildProductIndex (productData : List Char) : List ProductMatch :=
  let lines := (splitOnChar '\n' productData).filter (fun line => !(trimmed line).isEmpty)
  lines.filterMap (fun url =>
    if beginsWith catalogUrlStart url then
      let slug := (splitOnChar '/' url).getLastD []
      let name := lowerStr (hyphensToSpaces (removeGurtoy slug))
      some { url := url, slug := slug, name := name, score := 0,
             keywords := extractKeywords name }
    else none)

/-! ### The search-term extractor (`extractSearchTerms`) -/

/-- First unit word of `units` matching (case-insensitively) at the head
of `l`; the alternatives of the age regex are tried in written order. -/
def unitAt (units : List (List Char)) (l : List Char) : Option (List Char) :=
  units.find? (fun u => beginsWithCI u l)

/-- Attempt the age pattern `(\d+)\s*(unit₁|…|unitₙ)` anchored at the head
of `l`; on success return the captured digit run and the unit word. -/
def ageMatchAt (units : List (List Char)) (l : List Char) : Option (List Char × List Char) :=
  let ds := l.takeWhile Char.isDigit
  if ds.isEmpty then none
  else
    match unitAt units ((l.dropWhile Char.isDigit).dropWhile isWs) with
    | some u => some (ds, u)
    | none => none

/-- Leftmost match of the age pattern in `l` (the JS `String.match`). -/
def findAge (units : List (List Char)) : List Char → Option (List Char × List Char)
  | [] => none
  | c :: cs =>
    match ageMatchAt units (c :: cs) with
    | some r => some r
    | none => findAge units cs

/-- Unit alternatives of the search-term age regex
`/(\d+)\s*(year|month|yr|mo|saal)/i`. -/
def ageUnitsSearch : List (List Char) :=
  [str "year", str "month", str "yr", str "mo", str "saal"]

/-- One word of `ws` matches at the head of `l` and is followed by a
word boundary. -/
def wordHitAt (w l : List Char) : Bool :=
  beginsWithCI w l &&
    (match l.drop w.length with
     | [] => true
     | c :: _ => !isWordChar c)

/-- Scan for a `\b(w₁|…|wₙ)\b` match; `prevOk` says the previous character
(if any) was not a word character, so a word may start here. -/
def hasWordAux (ws : List (List Char)) (prevOk : Bool) : List Char → Bool
  | [] => false
  | c :: cs =>
    (prevOk && ws.any (fun w => wordHitAt w (c :: cs))) ||
      hasWordAux ws (!isWordChar c) cs

/-- JS `/\b(w₁|…|wₙ)\b/i.test(l)`. -/
def hasWordBounded (ws : List (List Char)) (l : List Char) : Bool :=
  hasWordAux ws true l

/-- Alternatives of the gender regex `/\b(boy|boys|ladka|beta)\b/i`. -/
def boyWords : List (List Char) := [str "boy", str "boys", str "ladka", str "beta"]

/-- Alternatives of the gender regex `/\b(girl|girls|ladki|beti)\b/i`. -/
def girlWords : List (List Char) := [str "girl", str "girls", str "ladki", str "beti"]

/-- The `categories` table of `extractSearchTerms`, in insertion order:
each row maps regex alternatives to the keywords they contribute. -/
def searchCategories : List (List (List Char) × List (List Char)) :=
  [([str "car", str "gaadi", str "vehicle"], [str "car", str "vehicle"]),
   ([str "bike", str "cycle", str "bicycle"], [str "bike", str "cycle"]),
   ([str "doll", str "barbie", str "gudiya"], [str "doll"]),
   ([str "educational", str "learning", str "study"], [str "educational"]),
   ([str "music", str "musical", str "song"], [str "musical"]),
   ([str "outdoor", str "bahar"], [str "outdoor", str "ride"]),
   ([str "indoor", str "ghar"], [str "indoor"]),
   ([str "creative", str "art", str "drawing"], [str "creative", str "art"])]

/-- The stop-word alternatives of
`/^(for|and|the|with|can|you|please|want|need|looking|good|best)$/i`. -/
def stopWords : List (List Char) :=
  [str "for", str "and", str "the", str "with", str "can", str "you",
   str "please", str "want", str "need", str "looking", str "good", str "best"]

/-- Case-insensitive stop-word test on one token. -/
def isStopWord (w : List Char) : Bool :=
  stopWords.any (fun s => lowerStr w == s)

/-- First-seen deduplication, the JS `Array.from(new Set(terms))`. -/
def dedupFirstAux {α : Type} [DecidableEq α] (seen : List α) : List α → List α
  | [] => []
  | a :: as =>
    if a ∈ seen then dedupFirstAux seen as
    else a :: dedupFirstAux (a :: seen) as

/-- First-seen deduplication of a list. -/
def dedupFirst {α : Type} [DecidableEq α] (l : List α) : List α :=
  dedupFirstAux [] l

/-- The term list of `extractSearchTerms` before deduplication:
age-bucket terms, gender terms, category-table terms, then the generic
tokens of length `≥ 3` that are not stop words. -/
def rawSearchTerms (query : List Char) : List (List Char) :=
  let ageTerms :=
    match findAge ageUnitsSearch query with
    | some (ds, _) =>
      let age := natOfDigits ds
      if age ≤ 2 then [str "baby", str "toddler"]
      else if age ≤ 5 then [str "kids", str "child"]
      else [str "kids"]
    | none => []
  let genderTerms :=
    (if hasWordBounded boyWords query then [str "boys"] else []) ++
      (if hasWordBounded girlWords query then [str "girls"] else [])
  let catTerms :=
    searchCategories.foldl
      (fun acc pk => if pk.1.any (fun p => containsCI p query) then acc ++ pk.2 else acc) []
  let words := splitWsJS (query.filter (fun c => isWordChar c || isWs c))
  let meaningfulWords := words.filter (fun w => 3 ≤ w.length && !isStopWord w)
  ageTerms ++ genderTerms ++ catTerms ++ meaningfulWords

/-- `extractSearchTerms(query)`: the raw terms, deduplicated preserving
first-seen order. -/
def extractSearchTerms (query : List Char) : List (List Char) :=
  dedupFirst (rawSearchTerms query)

/-! ### The relevance scorer (`calculateRelevanceScore`) -/

/-- `const popularProducts = [...]`. -/
def popularProducts : List (List Char) :=
  [str "car", str "bike", str "doll", str "educational", str "stroller", str "scooter"]

/-- `` `${product.name} ${product.keywords.join(' ')}`.toLowerCase() ``. -/
def productText (p : ProductMatch) : List Char :=
  lowerStr (p.name ++ [' '] ++ List.intercalate [' '] p.keywords)

/-- Contribution of one search term: `+10` for a substring hit, `+3` for a
hit of the term's first `min(4, length)` characters, `+15` for keyword
membership; the tiers stack. -/
def termScore (txt : List Char) (keywords : List (List Char)) (t : List Char) : Nat :=
  (if containsSeq t txt then 10 else 0) +
    (if containsSeq (t.take (min 4 t.length)) txt then 3 else 0) +
    (if t ∈ keywords then 15 else 0)

/-- The flat popularity bonus: `+2` for each popular word occurring in the
combined product text. -/
def popScore (txt : List Char) : Nat :=
  popularProducts.foldl (fun s w => s + (if containsSeq w txt then 2 else 0)) 0

/-- `calculateRelevanceScore(searchTerms, product)`. -/
def calculateRelevanceScore (searchTerms : List (List Char)) (p : ProductMatch) : Nat :=
  let txt := productText p
  searchTerms.foldl (fun s t => s + termScore txt p.keywords t) 0 + popScore txt

/-! ### The matcher (`findRelevantProducts`) -/

/-- The index-rebuild step at the top of `findRelevantProducts`:
rebuild when the index is absent or older than `INDEX_CACHE_TTL`
(`!productIndex || now - indexLastUpdated > INDEX_CACHE_TTL`). -/
def refreshIndex (productData : List Char) (now : Nat) (st : IndexState) : IndexState :=
  if st.productIndex.isNone || decide (INDEX_CACHE_TTL < now - st.indexLastUpdated) then
    { productIndex := some (buildProductIndex productData), indexLastUpdated := now }
  else st

/-- Score every indexed entry against the search terms and keep those with
a positive score (the `map` + `filter` of `findRelevantProducts`). -/
def scoredFiltered (searchTerms : List (List Char)) (idx : List ProductMatch) :
    List ProductMatch :=
  (idx.map (fun p => { p with score := calculateRelevanceScore searchTerms p })).filter
    (fun p => decide (0 < p.score))

/-- The comparison realised by the JS comparator `(a, b) => b.score - a.score`. -/
def scoreGe (a b : ProductMatch) : Prop := b.score ≤ a.score

instance : DecidableRel scoreGe := fun a b => inferInstanceAs (Decidable (b.score ≤ a.score))

instance : IsTotal ProductMatch scoreGe := ⟨fun a b => Nat.le_total b.score a.score⟩

instance : IsTrans ProductMatch scoreGe :=
  ⟨fun _ _ _ h h' => Nat.le_trans h' h⟩

/-- `findRelevantProducts(query, productData, limit)` at time `now` from
module state `st`: rebuild the index if needed, extract search terms from
the lowercased query (returning nothing when the term set is empty), then
score, filter to positive scores, sort descending by score (JS
`Array.prototype.sort` is stable, which `List.insertionSort` realises:
`orderedInsert` places an element before the first entry of no larger
score, so equal scores keep their original order) and take `limit`. -/
def findRelevantProducts (query productData : List Char) (limit : Nat) (now : Nat)
    (st : IndexState) : List ProductMatch × IndexState :=
  let st' := refreshIndex productData now st
  let idx := st'.productIndex.getD []
  let searchTerms := extractSearchTerms (lowerStr query)
  if searchTerms.isEmpty then ([], st')
  else ((List.insertionSort scoreGe (scoredFiltered searchTerms idx)).take limit, st')

/-! ## Context cache (`getCachedContextFiles` in `src/lib/getChatMemory.ts`) -/

/-- The `ContextFiles` interface: four named text documents. -/
structure ContextFiles where
  product : List Char
  contact : List Char
  privacy : List Char
  detail : List Char
deriving DecidableEq, Repr

/-- The `CachedContext` interface: cached data with its timestamps. -/
structure CachedContext where
  data : ContextFiles
  lastModified : Nat
  expires : Nat
deriving DecidableEq, Repr

/-- `CACHE_TTL = 5 * 60 * 1000` (5 minutes). -/
def CACHE_TTL : Nat := 5 * 60 * 1000

/-- Outcome of awaiting the `loadFunction` promise: it resolves with data,
resolves with `null`, or rejects. -/
inductive LoaderResult where
  | ok : Option ContextFiles → LoaderResult
  | thrown : LoaderResult
deriving DecidableEq, Repr

/-- Result of one `getCachedContextFiles` call: `ret = some r` models the
promise resolving with `r` (`none` standing for JS `null`), while
`ret = none` models the call itself rejecting because the loader threw.
`cache` is the `contextCache` singleton after the call and
`loaderInvoked` records whether `loadFunction` was called. -/
structure CacheCallResult where
  ret : Option (Option ContextFiles)
  cache : Option CachedContext
  loaderInvoked : Bool
deriving DecidableEq, Repr

/-- The code path taken after the cache-validity check failed: invoke the
loader; a throw propagates (there is no try/catch in the source function)
leaving the cache untouched; a `null` result falls back to the stale entry
when one exists; fresh data replaces the cache wholesale. -/
def cacheMiss (now : Nat) (cache : Option CachedContext) (loader : LoaderResult) :
    CacheCallResult :=
  match loader with
  | .thrown => ⟨none, cache, true⟩
  | .ok none =>
    match cache with
    | some c => ⟨some (some c.data), some c, true⟩
    | none => ⟨some none, none, true⟩
  | .ok (some d) => ⟨some (some d), some ⟨d, now, now + CACHE_TTL⟩, true⟩

/-- `getCachedContextFiles(loadFunction)` at time `now` with singleton
state `cache`, the loader's behaviour being `loader`: a valid
(non-expired, `now < expires`) entry is returned without invoking the
loader, otherwise the miss path runs. -/
def getCachedContextFiles (now : Nat) (cache : Option CachedContext)
    (loader : LoaderResult) : CacheCallResult :=
  match cache with
  | some c =>
    if now < c.expires then ⟨some (some c.data), some c, false⟩
    else cacheMiss now cache loader
  | none => cacheMiss now cache loader

/-! ## Conversation memory formatter (`formatChatHistoryForAI`) -/

/-- The `role` field of a `Chat` row: `'user' | 'assistant'`. -/
inductive Role where
  | user
  | assistant
deriving DecidableEq, Repr

/-- The string interpolation of a role value. -/
def Role.render : Role → List Char
  | .user => str "user"
  | .assistant => str "assistant"

/-- A chat row as the formatter consumes it. -/
structure Chat where
  role : Role
  message : List Char
deriving DecidableEq, Repr

/-- Unit alternatives of the child-age regex of `extractChildAge`
(no `saal`, unlike the search-term regex). -/
def ageUnitsChat : List (List Char) :=
  [str "year", str "month", str "yr", str "mo"]

/-- `extractChildAge(chatHistory)`: the first user message (scanning from
the start) matching the age pattern yields `"{digits} {unit}"` with the
unit lowercased. -/
def extractChildAge : List Chat → Option (List Char)
  | [] => none
  | c :: cs =>
    if c.role = Role.user then
      match findAge ageUnitsChat c.message with
      | some (ds, u) => some (ds ++ [' '] ++ u)
      | none => extractChildAge cs
    else extractChildAge cs

/-- The interest-keyword vocabulary of `extractInterests`. -/
def interestKeywords : List (List Char) :=
  [str "educational", str "puzzle", str "toy", str "car", str "doll",
   str "bike", str "outdoor", str "indoor", str "creative",
   str "building", str "musical"]

/-- `extractInterests(chatHistory)`: scan user messages in order, and for
each, the keyword vocabulary in order, collecting distinct substring hits;
keep the first three. -/
def extractInterests (h : List Chat) : List (List Char) :=
  (h.foldl
    (fun acc c =>
      if c.role = Role.user then
        interestKeywords.foldl
          (fun acc2 kw =>
            if containsSeq kw (lowerStr c.message) && !acc2.contains kw then
              acc2 ++ [kw]
            else acc2)
          acc
      else acc)
    []).take 3

/-- One line of the recent-messages block:
`` `${chat.role}: ${chat.message.substring(0, 100)}${chat.message.length > 100 ? '...' : ''}` ``. -/
def chatLine (c : Chat) : List Char :=
  Role.render c.role ++ str ": " ++ c.message.take 100 ++
    (if 100 < c.message.length then str "..." else [])

/-- The `contextSummary` accumulator of `formatChatHistoryForAI`. -/
def contextSummary (h : List Chat) : List Char :=
  (match extractChildAge h with
   | some a => str "Child age: " ++ a ++ str ". "
   | none => []) ++
    (let ints := extractInterests h
     if ints.isEmpty then []
     else str "Interests: " ++ List.intercalate (str ", ") ints ++ str ". ")

/-- `formatChatHistoryForAI(chatHistory)`: the fixed sentinel for an empty
history; otherwise the context-summary line followed by the last 10 turns
(JS `slice(-10)`) rendered one per line. -/
def formatChatHistoryForAI (h : List Chat) : List Char :=
  if h.isEmpty then str "New conversation - no previous context."
  else
    let recentHistory :=
      List.intercalate (str "\n") ((h.drop (h.length - 10)).map chatLine)
    str "Context: " ++ contextSummary h ++ str "\nRecent messages:\n" ++
      recentHistory ++ str "\n"

/-! ## Supporting lemmas -/

/-- Index of the first occurrence of `a` in a list (length of the list
when absent). -/
def firstIdx {α : Type} [DecidableEq α] : List α → α → Nat
  | [], _ => 0
  | b :: bs, a => if b = a then 0 else firstIdx bs a + 1

theorem mem_dedupFirstAux {α : Type} [DecidableEq α] (l : List α) (seen : List α) (a : α) :
    a ∈ dedupFirstAux seen l ↔ a ∈ l ∧ a ∉ seen := by
  induction l generalizing seen with
  | nil => simp [dedupFirstAux]
  | cons b bs ih =>
    simp only [dedupFirstAux]
    split_ifs with hb
    · rw [ih]
      simp only [List.mem_cons]
      constructor
      · exact fun ⟨h1, h2⟩ => ⟨Or.inr h1, h2⟩
      · rintro ⟨(rfl | h1), h2⟩
        · exact absurd hb h2
        · exact ⟨h1, h2⟩
    · simp only [List.mem_cons, ih, List.mem_cons]
      constructor
      · rintro (rfl | ⟨h1, h2⟩)
        · exact ⟨Or.inl rfl, hb⟩
        · exact ⟨Or.inr h1, fun hs => h2 (Or.inr hs)⟩
      · rintro ⟨(rfl | h1), h2⟩
        · exact Or.inl rfl
        · by_cases hab : a = b
          · exact Or.inl hab
          · exact Or.inr ⟨h1, fun hs => hs.elim hab h2⟩

theorem dedupFirstAux_sublist {α : Type} [DecidableEq α] (l seen : List α) :
    List.Sublist (dedupFirstAux seen l) l := by
  induction l generalizing seen with
  | nil => simp [dedupFirstAux]
  | cons b bs ih =>
    simp only [dedupFirstAux]
    split_ifs with hb
    · exact (ih seen).trans (List.sublist_cons_self b bs)
    · exact List.Sublist.cons₂ b (ih (b :: seen))

theorem pairwise_firstIdx_dedupFirstAux {α : Type} [DecidableEq α] (l seen : List α) :
    (dedupFirstAux seen l).Pairwise (fun x y => firstIdx l x < firstIdx l y) := by
  induction l generalizing seen with
  | nil => simp [dedupFirstAux]
  | cons b bs ih =>
    simp only [dedupFirstAux]
    split_ifs with hb
    · refine List.Pairwise.imp_of_mem ?_ (ih seen)
      intro x y hx hy hlt
      have hx' := (mem_dedupFirstAux bs seen x).1 hx
      have hy' := (mem_dedupFirstAux bs seen y).1 hy
      have hxb : x ≠ b := fun h => hx'.2 (h ▸ hb)
      have hyb : y ≠ b := fun h => hy'.2 (h ▸ hb)
      simp only [firstIdx]
      rw [if_neg (fun h => hxb h.symm), if_neg (fun h => hyb h.symm)]
      omega
    · constructor
      · intro y hy
        have hy' := (mem_dedupFirstAux bs (b :: seen) y).1 hy
        have hyb : y ≠ b := fun h => hy'.2 (h ▸ List.mem_cons_self b seen)
        have e1 : firstIdx (b :: bs) b = 0 := by simp [firstIdx]
        have e2 : firstIdx (b :: bs) y = firstIdx bs y + 1 := by
          simp only [firstIdx]
          rw [if_neg (fun h => hyb h.symm)]
        rw [e1, e2]
        omega
      · refine List.Pairwise.imp_of_mem ?_ (ih (b :: seen))
        intro x y hx hy hlt
        have hx' := (mem_dedupFirstAux bs (b :: seen) x).1 hx
        have hy' := (mem_dedupFirstAux bs (b :: seen) y).1 hy
        have hxb : x ≠ b := fun h => hx'.2 (h ▸ List.mem_cons_self b seen)
        have hyb : y ≠ b := fun h => hy'.2 (h ▸ List.mem_cons_self b seen)
        simp only [firstIdx]
        rw [if_neg (fun h => hxb h.symm), if_neg (fun h => hyb h.symm)]
        omega

theorem nodup_dedupFirst {α : Type} [DecidableEq α] (l : List α) : (dedupFirst l).Nodup := by
  refine List.Pairwise.imp ?_ (pairwise_firstIdx_dedupFirstAux l [])
  intro a b hlt heq
  subst heq
  omega

/-! ## Claims -/

/-- C7: the extractor applied to `"car for 3 year old boy"` yields a term
set containing `kids`, `child`, `boys`, `car` and `vehicle`; and for every
query the returned list is deduplicated (no duplicates, a subsequence of
the raw term list containing every raw term) with first-seen order
preserved (earlier entries have strictly smaller first-occurrence index in
the raw term list). -/
theorem extractSearchTerms_example_and_dedup :
    (str "kids" ∈ extractSearchTerms (str "car for 3 year old boy") ∧
     str "child" ∈ extractSearchTerms (str "car for 3 year old boy") ∧
     str "boys" ∈ extractSearchTerms (str "car for 3 year old boy") ∧
     str "car" ∈ extractSearchTerms (str "car for 3 year old boy") ∧
     str "vehicle" ∈ extractSearchTerms (str "car for 3 year old boy")) ∧
    ∀ q : List Char,
      (extractSearchTerms q).Nodup ∧
      List.Sublist (extractSearchTerms q) (rawSearchTerms q) ∧
      (∀ t, t ∈ rawSearchTerms q ↔ t ∈ extractSearchTerms q) ∧
      (extractSearchTerms q).Pairwise
        (fun a b => firstIdx (rawSearchTerms q) a < firstIdx (rawSearchTerms q) b) := by
  constructor
  · exact ⟨by decide, by decide, by decide, by decide, by decide⟩
  · intro q
    refine ⟨nodup_dedupFirst _, dedupFirstAux_sublist _ _, ?_, ?_⟩
    · intro t
      rw [extractSearchTerms, dedupFirst, mem_dedupFirstAux]
      simp
    · exact pairwise_firstIdx_dedupFirstAux _ _

/-- The concrete entry of C8: name
`"push car rabbit car for kids"` with keywords `{car, kids}`. -/
def pushCarEntry : ProductMatch :=
  { url := [], slug := [], name := str "push car rabbit car for kids",
    score := 0, keywords := [str "car", str "kids"] }

/-- C8: against the terms `{car, kids}` the entry scores at least
`10 + 3 + 15` per term plus the `+2` popularity bonus for the `car`
substring, so the total is at least 47 (it is exactly 58). -/
theorem calculateRelevanceScore_example :
    28 ≤ termScore (productText pushCarEntry) pushCarEntry.keywords (str "car") ∧
    28 ≤ termScore (productText pushCarEntry) pushCarEntry.keywords (str "kids") ∧
    2 ≤ popScore (productText pushCarEntry) ∧
    47 ≤ calculateRelevanceScore [str "car", str "kids"] pushCarEntry := by
  refine ⟨by decide, by decide, by decide, by decide⟩

/-- C2: starting from an empty cache, a successful load at `t₁` stores the
data with a fresh TTL window; a later call after expiry
(`t₁ + CACHE_TTL ≤ t₂`) whose loader fails by returning null serves the
first call's data unchanged; and with no previous entry at all a failing
loader makes the call return null. -/
theorem getCachedContextFiles_stale_fallback (t₁ t₂ : Nat) (d : ContextFiles)
    (hexp : t₁ + CACHE_TTL ≤ t₂) :
    getCachedContextFiles t₁ none (LoaderResult.ok (some d)) =
      ⟨some (some d), some ⟨d, t₁, t₁ + CACHE_TTL⟩, true⟩ ∧
    getCachedContextFiles t₂ (some ⟨d, t₁, t₁ + CACHE_TTL⟩) (LoaderResult.ok none) =
      ⟨some (some d), some ⟨d, t₁, t₁ + CACHE_TTL⟩, true⟩ ∧
    ∀ t : Nat, getCachedContextFiles t none (LoaderResult.ok none) =
      ⟨some none, none, true⟩ := by
  refine ⟨rfl, ?_, fun t => rfl⟩
  rw [getCachedContextFiles, if_neg (Nat.not_lt.2 hexp)]
  rfl

/-- Sample context documents for the C2 witness. -/
def ctxDocsC2 : ContextFiles :=
  ⟨str "product", str "contact", str "privacy", str "detail"⟩

theorem getCachedContextFiles_stale_fallback_witness :
    getCachedContextFiles 0 none (LoaderResult.ok (some ctxDocsC2)) =
      ⟨some (some ctxDocsC2), some ⟨ctxDocsC2, 0, 0 + CACHE_TTL⟩, true⟩ ∧
    getCachedContextFiles CACHE_TTL (some ⟨ctxDocsC2, 0, 0 + CACHE_TTL⟩)
        (LoaderResult.ok none) =
      ⟨some (some ctxDocsC2), some ⟨ctxDocsC2, 0, 0 + CACHE_TTL⟩, true⟩ :=
  ⟨(getCachedContextFiles_stale_fallback 0 CACHE_TTL ctxDocsC2 (by omega)).1,
   (getCachedContextFiles_stale_fallback 0 CACHE_TTL ctxDocsC2 (by omega)).2.1⟩

/-- C5: whenever a call leaves the cache holding an entry `c` and itself
resolved (did not reject), a second call while `c` is still within its TTL
window (`t₂ < c.expires`) does not invoke the loader, returns exactly the
cached data, and that data is by value what the first call returned. -/
theorem getCachedContextFiles_ttl_idempotent (t₁ t₂ : Nat) (st₀ : Option CachedContext)
    (ld₁ ld₂ : LoaderResult) (c : CachedContext) (r : Option ContextFiles)
    (h₁ : (getCachedContextFiles t₁ st₀ ld₁).ret = some r)
    (h₂ : (getCachedContextFiles t₁ st₀ ld₁).cache = some c)
    (httl : t₂ < c.expires) :
    getCachedContextFiles t₂ (some c) ld₂ = ⟨some (some c.data), some c, false⟩ ∧
      r = some c.data := by
  constructor
  · rw [getCachedContextFiles, if_pos httl]
  · rcases st₀ with _ | c₀
    · rcases ld₁ with (_ | d₁) | _
      · simp [getCachedContextFiles, cacheMiss] at h₂
      · simp only [getCachedContextFiles, cacheMiss, Option.some.injEq] at h₁ h₂
        subst h₁
        subst h₂
        rfl
      · simp [getCachedContextFiles, cacheMiss] at h₁
    · by_cases hv : t₁ < c₀.expires
      · simp only [getCachedContextFiles, if_pos hv, Option.some.injEq] at h₁ h₂
        subst h₁
        subst h₂
        rfl
      · rcases ld₁ with (_ | d₁) | _
        · simp only [getCachedContextFiles, if_neg hv, cacheMiss,
            Option.some.injEq] at h₁ h₂
          subst h₁
          subst h₂
          rfl
        · simp only [getCachedContextFiles, if_neg hv, cacheMiss,
            Option.some.injEq] at h₁ h₂
          subst h₁
          subst h₂
          rfl
        · simp [getCachedContextFiles, if_neg hv, cacheMiss] at h₁

/-- Sample context documents for the C5 witness. -/
def ctxDocsC5 : ContextFiles :=
  ⟨str "p5", str "c5", str "v5", str "d5"⟩

theorem getCachedContextFiles_ttl_idempotent_witness :
    getCachedContextFiles 1 (some ⟨ctxDocsC5, 0, 0 + CACHE_TTL⟩) LoaderResult.thrown =
      ⟨some (some ctxDocsC5), some ⟨ctxDocsC5, 0, 0 + CACHE_TTL⟩, false⟩ ∧
    (some ctxDocsC5 : Option ContextFiles) = some ctxDocsC5 :=
  getCachedContextFiles_ttl_idempotent 0 1 none (LoaderResult.ok (some ctxDocsC5))
    LoaderResult.thrown ⟨ctxDocsC5, 0, 0 + CACHE_TTL⟩ (some ctxDocsC5)
    rfl rfl (by decide)

/-- Sample context documents for the C3 counterexample. -/
def ctxDocsC3 : ContextFiles :=
  ⟨str "p3", str "c3", str "v3", str "d3"⟩

/-- C3 counterexample: `getCachedContextFiles` has no try/catch around
`await loadFunction()`, so a loader that rejects makes the call itself
reject (`ret = none` in the model) — even when a stale entry is available
— instead of resolving with the stale data or null as the claim states. -/
theorem getCachedContextFiles_thrown_loader_propagates :
    getCachedContextFiles 0 none LoaderResult.thrown = ⟨none, none, true⟩ ∧
    getCachedContextFiles CACHE_TTL (some ⟨ctxDocsC3, 0, CACHE_TTL⟩)
        LoaderResult.thrown =
      ⟨none, some ⟨ctxDocsC3, 0, CACHE_TTL⟩, true⟩ := by
  constructor
  · rfl
  · rw [getCachedContextFiles, if_neg (Nat.lt_irrefl CACHE_TTL)]
    rfl

/-- C3 as amended: a loader failure signalled by a null return yields the
stale cached data when an entry exists and null otherwise; the call
rejects only when the loader itself throws, and in that case the cache is
untouched; and in every case the cache singleton is never left partially
updated — it is either unchanged or wholly replaced by a complete fresh
entry. -/
theorem getCachedContextFiles_failure_semantics (now : Nat)
    (cache : Option CachedContext) (loader : LoaderResult) :
    (loader = LoaderResult.ok none →
      (getCachedContextFiles now cache loader).ret =
        some (match cache with | some c => some c.data | none => none)) ∧
    ((getCachedContextFiles now cache loader).ret = none →
      loader = LoaderResult.thrown ∧
        (getCachedContextFiles now cache loader).cache = cache) ∧
    ((getCachedContextFiles now cache loader).cache = cache ∨
      ∃ d, loader = LoaderResult.ok (some d) ∧
        (getCachedContextFiles now cache loader).cache =
          some ⟨d, now, now + CACHE_TTL⟩) := by
  rcases cache with _ | c
  · rcases loader with (_ | d) | _ <;>
      simp [getCachedContextFiles, cacheMiss]
  · by_cases hv : now < c.expires <;>
      rcases loader with (_ | d) | _ <;>
      simp [getCachedContextFiles, cacheMiss, hv]

theorem getCachedContextFiles_failure_semantics_witness :
    (getCachedContextFiles 0 none (LoaderResult.ok none)).ret = some none :=
  (getCachedContextFiles_failure_semantics 0 none (LoaderResult.ok none)).1 rfl

/-- Every word of the `extractKeywords` vocabulary is longer than two
characters, so the `word.length > 2` guard is redundant on the vocabulary
branch. -/
theorem allKeywords_long : ∀ w ∈ allKeywords, 2 < w.length := by decide

/-- C6 counterexample: the catalog line
`https://thegurtoys.com/products/go-kart` yields the entry with name
`"go kart"` — two words, hence at most five — whose keywords are only
`["kart"]`, not all of the name's words: the builder also drops every word
of length `≤ 2` (here `"go"`). -/
theorem extractKeywords_short_name_drops_short_words :
    (buildProductIndex (str "https://thegurtoys.com/products/go-kart")).map
        (fun p => (p.name, p.keywords)) = [(str "go kart", [str "kart"])] ∧
    splitWsJS (lowerStr (str "go kart")) = [str "go", str "kart"] ∧
    (splitWsJS (lowerStr (str "go kart"))).length ≤ 5 ∧
    [str "kart"] ≠ [str "go", str "kart"] := by
  refine ⟨by decide, by decide, by decide, by decide⟩

/-- C6 as amended: for every entry built by the index builder, if the
derived name has five or fewer whitespace-separated words the keywords are
exactly the name's words longer than two characters; otherwise they are
exactly the name's words that occur in the fixed vocabulary lists. -/
theorem buildProductIndex_keywords (pd : List Char) (p : ProductMatch)
    (hp : p ∈ buildProductIndex pd) :
    p.keywords = extractKeywords p.name ∧
    ((splitWsJS (lowerStr p.name)).length ≤ 5 →
      p.keywords = (splitWsJS (lowerStr p.name)).filter (fun w => 2 < w.length)) ∧
    (5 < (splitWsJS (lowerStr p.name)).length →
      p.keywords = (splitWsJS (lowerStr p.name)).filter
        (fun w => decide (w ∈ allKeywords))) := by
  have hkw : p.keywords = extractKeywords p.name := by
    simp only [buildProductIndex, List.mem_filterMap] at hp
    obtain ⟨url, -, heq⟩ := hp
    split at heq
    · cases heq
      rfl
    · cases heq
  refine ⟨hkw, ?_, ?_⟩
  · intro hshort
    rw [hkw, extractKeywords]
    refine List.filter_congr ?_
    intro w _
    have h5 : decide ((splitWsJS (lowerStr p.name)).length ≤ 5) = true :=
      decide_eq_true hshort
    rw [h5, Bool.or_true, Bool.and_true]
  · intro hlong
    rw [hkw, extractKeywords]
    refine List.filter_congr ?_
    intro w hw
    have h5 : decide ((splitWsJS (lowerStr p.name)).length ≤ 5) = false :=
      decide_eq_false (by omega)
    rw [h5, Bool.or_false]
    by_cases hmem : w ∈ allKeywords
    · have h2 : 2 < w.length := allKeywords_long w hmem
      simp [hmem, h2]
    · simp [hmem]

/-- The concrete `go-kart` entry, as the index builder constructs it. -/
def goKartEntry : ProductMatch :=
  { url := str "https://thegurtoys.com/products/go-kart",
    slug := str "go-kart", name := str "go kart", score := 0,
    keywords := [str "kart"] }

theorem buildProductIndex_keywords_witness :
    goKartEntry.keywords =
      (splitWsJS (lowerStr goKartEntry.name)).filter (fun w => 2 < w.length) :=
  (buildProductIndex_keywords (str "https://thegurtoys.com/products/go-kart")
    goKartEntry (by decide)).2.1 (by decide)

/-- The stale index entry used in the C4 counterexample. -/
def staleCarEntry : ProductMatch :=
  { url := str "https://thegurtoys.com/products/gurtoy-car",
    slug := str "gurtoy-car", name := str "car", score := 0,
    keywords := [str "car"] }

/-- C4 counterexample: the claim quantifies over every prior index-cache
state, but when the cached index is present and fresh
(`now - indexLastUpdated ≤ INDEX_CACHE_TTL`) `findRelevantProducts` never
reads `catalogText`: with an empty catalog it still serves matches from
the stale index instead of an empty index. -/
theorem findRelevantProducts_fresh_state_ignores_catalog :
    buildProductIndex (str "") = [] ∧
    (findRelevantProducts (str "car") (str "") 3 5
        ⟨some [staleCarEntry], 5⟩).1 ≠ [] := by
  refine ⟨by decide, by decide⟩

/-- C4 as amended: whenever the call actually (re)builds the index — the
prior state being absent or expired — a catalog text none of whose lines
starts with the canonical URL yields an empty index (no error) and the
call returns no matches. -/
theorem findRelevantProducts_malformed_catalog (q pd : List Char)
    (limit now : Nat) (st : IndexState)
    (hmal : ∀ line ∈ splitOnChar '\n' pd, beginsWith catalogUrlStart line = false)
    (hreb : st.productIndex = none ∨ INDEX_CACHE_TTL < now - st.indexLastUpdated) :
    buildProductIndex pd = [] ∧
    (findRelevantProducts q pd limit now st).1 = [] ∧
    (findRelevantProducts q pd limit now st).2 = ⟨some [], now⟩ := by
  have hempty : buildProductIndex pd = [] := by
    rw [buildProductIndex, List.filterMap_eq_nil_iff]
    intro url hurl
    simp [hmal url (List.mem_of_mem_filter hurl)]
  have hcond : (st.productIndex.isNone ||
      decide (INDEX_CACHE_TTL < now - st.indexLastUpdated)) = true := by
    rcases hreb with h | h
    · simp [h]
    · simp [h]
  have hst : refreshIndex pd now st = ⟨some [], now⟩ := by
    rw [refreshIndex, if_pos hcond, hempty]
  refine ⟨hempty, ?_, ?_⟩ <;>
    · rw [findRelevantProducts]
      simp only [hst]
      split <;> simp [scoredFiltered]

theorem findRelevantProducts_malformed_catalog_witness :
    (findRelevantProducts (str "car") (str "noise") 3 0 ⟨none, 0⟩).1 = [] :=
  (findRelevantProducts_malformed_catalog (str "car") (str "noise") 3 0 ⟨none, 0⟩
    (by decide) (Or.inl rfl)).2.1

/-- C9: the formatter returns exactly the fixed sentinel for an empty
history; for a non-empty history it renders exactly the last 10 turns —
each as `"{role}: {message}"` with the message truncated to 100 characters
and an ellipsis appended exactly when it is longer — joined by newlines,
inside the fixed `Context:`/`Recent messages:` frame. -/
theorem formatChatHistoryForAI_spec :
    formatChatHistoryForAI [] = str "New conversation - no previous context." ∧
    ∀ h : List Chat, h ≠ [] →
      formatChatHistoryForAI h =
        str "Context: " ++ contextSummary h ++ str "\nRecent messages:\n" ++
          List.intercalate (str "\n")
            ((h.drop (h.length - 10)).map (fun c =>
              Role.render c.role ++ str ": " ++ c.message.take 100 ++
                (if 100 < c.message.length then str "..." else []))) ++
          str "\n" := by
  constructor
  · rfl
  · intro h hne
    rw [formatChatHistoryForAI, if_neg (by simp [List.isEmpty_iff, hne])]
    rfl

theorem formatChatHistoryForAI_spec_witness :
    formatChatHistoryForAI [⟨Role.user, str "hi"⟩] =
      str "Context: \nRecent messages:\nuser: hi\n" := by
  rw [formatChatHistoryForAI_spec.2 [⟨Role.user, str "hi"⟩] (by decide)]
  decide

/-- The popularity-bonus accumulator never decreases. -/
theorem foldl_popAdd_le (txt : List Char) (ws : List (List Char)) (a : Nat) :
    a ≤ ws.foldl (fun s v => s + (if containsSeq v txt then 2 else 0)) a := by
  induction ws generalizing a with
  | nil => exact Nat.le_refl a
  | cons b bs ih =>
    simp only [List.foldl]
    exact Nat.le_trans (Nat.le_add_right a _) (ih _)

/-- A popular word contained in the text contributes its `+2` to the
accumulated popularity bonus. -/
theorem foldl_popAdd_mem (txt w : List Char) (hc : containsSeq w txt = true) :
    ∀ ws : List (List Char), w ∈ ws → ∀ a : Nat,
      a + 2 ≤ ws.foldl (fun s v => s + (if containsSeq v txt then 2 else 0)) a := by
  intro ws hw
  induction hw with
  | head bs =>
    intro a
    simp only [List.foldl]
    rw [if_pos hc]
    exact foldl_popAdd_le txt bs (a + 2)
  | tail b hw ih =>
    intro a
    simp only [List.foldl]
    refine Nat.le_trans ?_ (ih _)
    have h0 := Nat.zero_le (if containsSeq b txt then 2 else 0)
    omega

/-- C10: for a non-empty search-term set, any indexed entry whose combined
name-plus-keywords text contains a popular word gets at least 2 from the
flat popularity bonus alone, hence a positive total score, and is
therefore kept by the score-positivity filter of `findRelevantProducts`
even if no search term matches it. -/
theorem popularity_bonus_retains_entry (terms : List (List Char))
    (idx : List ProductMatch) (p : ProductMatch) (w : List Char)
    (hne : terms ≠ []) (hp : p ∈ idx) (hw : w ∈ popularProducts)
    (hc : containsSeq w (productText p) = true) :
    2 ≤ popScore (productText p) ∧
    0 < calculateRelevanceScore terms p ∧
    { p with score := calculateRelevanceScore terms p } ∈ scoredFiltered terms idx := by
  have hpop : 2 ≤ popScore (productText p) :=
    foldl_popAdd_mem (productText p) w hc popularProducts hw 0
  have hscore : 0 < calculateRelevanceScore terms p := by
    simp only [calculateRelevanceScore]
    have hmono := Nat.le_add_left (popScore (productText p))
      (terms.foldl (fun s t => s + termScore (productText p) p.keywords t) 0)
    omega
  refine ⟨hpop, hscore, ?_⟩
  rw [scoredFiltered]
  exact List.mem_filter.2 ⟨List.mem_map.2 ⟨p, hp, rfl⟩, decide_eq_true hscore⟩

/-- The entry used in the C10 witness: no search term matches it, only the
popularity bonus applies. -/
def dollEntry : ProductMatch :=
  { url := str "u", slug := str "s", name := str "doll", score := 0, keywords := [] }

theorem popularity_bonus_retains_entry_witness :
    0 < calculateRelevanceScore [str "qqq"] dollEntry :=
  (popularity_bonus_retains_entry [str "qqq"] [dollEntry] dollEntry (str "doll")
    (by decide) (by decide) (by decide) (by decide)).2.1

/-- Filtering to one score value commutes with `orderedInsert`: the
inserted element lands in front of the equal-score block (it is placed
before the first entry of no larger score), so within each score class
the original order is preserved. -/
theorem filter_orderedInsert_score (s : Nat) (a : ProductMatch) (l : List ProductMatch) :
    (List.orderedInsert scoreGe a l).filter (fun p => decide (p.score = s)) =
      if a.score = s then a :: l.filter (fun p => decide (p.score = s))
      else l.filter (fun p => decide (p.score = s)) := by
  rw [List.orderedInsert_eq_take_drop, List.filter_append]
  by_cases ha : a.score = s
  · have hnil : (l.takeWhile fun b => decide (¬ scoreGe a b)).filter
        (fun p => decide (p.score = s)) = [] := by
      rw [List.filter_eq_nil_iff]
      intro b hb
      have hq := List.mem_takeWhile_imp hb
      simp only [decide_eq_true_eq, scoreGe, Nat.not_le] at hq
      simp only [decide_eq_true_eq]
      omega
    rw [if_pos ha, hnil, List.nil_append,
      List.filter_cons_of_pos (by simp [ha])]
    congr 1
    conv_rhs => rw [← List.takeWhile_append_dropWhile
      (p := fun b => decide (¬ scoreGe a b)) (l := l)]
    rw [List.filter_append, hnil, List.nil_append]
  · rw [if_neg ha, List.filter_cons_of_neg (by simp [ha])]
    conv_rhs => rw [← List.takeWhile_append_dropWhile
      (p := fun b => decide (¬ scoreGe a b)) (l := l)]
    rw [List.filter_append]

/-- Filtering to one score value commutes with the stable sort: the sorted
list keeps each score class in its original order. -/
theorem filter_insertionSort_score (s : Nat) (l : List ProductMatch) :
    (List.insertionSort scoreGe l).filter (fun p => decide (p.score = s)) =
      l.filter (fun p => decide (p.score = s)) := by
  induction l with
  | nil => rfl
  | cons a l ih =>
    simp only [List.insertionSort]
    rw [filter_orderedInsert_score, ih]
    by_cases ha : a.score = s
    · rw [if_pos ha, List.filter_cons_of_pos (by simp [ha])]
    · rw [if_neg ha, List.filter_cons_of_neg (by simp [ha])]

/-- C1: for every query, catalog text, limit, time and prior index-cache
state, `findRelevantProducts` returns at most `limit` entries, every
returned entry has a positive score, the list is sorted descending by
score, and within each score class the returned entries are a subsequence
of the scored index (so ties keep the catalog/index order). -/
theorem findRelevantProducts_props (query productData : List Char)
    (limit now : Nat) (st : IndexState) :
    (findRelevantProducts query productData limit now st).1.length ≤ limit ∧
    (∀ p ∈ (findRelevantProducts query productData limit now st).1, 0 < p.score) ∧
    List.Pairwise (fun a b => b.score ≤ a.score)
      (findRelevantProducts query productData limit now st).1 ∧
    ∀ s : Nat, List.Sublist
      ((findRelevantProducts query productData limit now st).1.filter
        (fun p => decide (p.score = s)))
      ((scoredFiltered (extractSearchTerms (lowerStr query))
          ((refreshIndex productData now st).productIndex.getD [])).filter
        (fun p => decide (p.score = s))) := by
  simp only [findRelevantProducts]
  split
  · exact ⟨by simp, by simp, by simp, fun s => by simp⟩
  · refine ⟨?_, ?_, ?_, ?_⟩
    · simp only [List.length_take]
      omega
    · intro p hp
      have hp' : p ∈ List.insertionSort scoreGe
          (scoredFiltered (extractSearchTerms (lowerStr query))
            ((refreshIndex productData now st).productIndex.getD [])) :=
        List.mem_of_mem_take hp
      have hp'' := (List.perm_insertionSort scoreGe _).mem_iff.1 hp'
      exact of_decide_eq_true (List.mem_filter.1 hp'').2
    · have hs := List.sorted_insertionSort scoreGe
        (scoredFiltered (extractSearchTerms (lowerStr query))
          ((refreshIndex productData now st).productIndex.getD []))
      exact (List.Pairwise.sublist (List.take_sublist _ _) hs).imp (fun h => h)
    · intro s
      have h1 := List.Sublist.filter (fun p => decide (p.score = s))
        (List.take_sublist limit (List.insertionSort scoreGe
          (scoredFiltered (extractSearchTerms (lowerStr query))
            ((refreshIndex productData now st).productIndex.getD []))))
      rwa [filter_insertionSort_score] at h1

theorem findRelevantProducts_props_witness :
    (findRelevantProducts (str "car") (str "x") 3 0 ⟨none, 0⟩).1.length ≤ 3 :=
  (findRelevantProducts_props (str "car") (str "x") 3 0 ⟨none, 0⟩).1

end Gurtoy
